import Mathlib

/-!
Verification development for the jodin-rs bytecode virtual machine.

The execution engine lives in src/jodin-rs-vm/src/vm.rs and the bytecode
version header in src/jodin-asm/src/asm_version.rs; those files are the
authority for every definition below that carries their names
(interpret_instruction, load, load_static, run, run_from_index, fault,
end_fault, set_program_counter, program_counter, build_vm,
to_magic_number, verify_magic_number).

Several collaborating modules of the repository are not present under src/:
the jodin-common assembly value and instruction enums
(jodin-common/src/assembly/value.rs and instructions.rs), the MemoryTrait
implementation, the ArithmeticsTrait implementation, the fault module
(jodin-rs-vm/src/fault.rs) and the error module (jodin-rs-vm/src/error.rs).
Definitions for those carry a doc comment starting with
`Modelled from the spec:` and follow the specification's words.

Machine integers are modelled as Nat / Int with explicit `% 2 ^ w`
reductions where wrap-around matters.  Rust `panic!` aborts are modelled as
a dedicated result constructor carrying the abort message; `Result::Err`
values are modelled with `Except`-style constructors so that callers which
swallow a `Result` (as `load` does for static regions) can be modelled
faithfully.  Some result constructors also carry the machine state at that
point purely as instrumentation, so that theorems can speak about the
state in which an abort happened; a Rust panic itself exposes no state.
-/

/-- Association-list lookup, modelling `HashMap` reads keyed by strings. -/
def assoc_lookup {α : Type} [DecidableEq α] {β : Type} : List (α × β) → α → Option β
  | [], _ => none
  | p :: rest, k => if p.1 = k then some p.2 else assoc_lookup rest k

/-- Association-list insert-or-overwrite, modelling `HashMap` writes:
the first entry with the key is replaced, otherwise the pair is appended. -/
def assoc_insert {α : Type} [DecidableEq α] {β : Type} :
    List (α × β) → α → β → List (α × β)
  | [], k, v => [(k, v)]
  | p :: rest, k, v =>
      if p.1 = k then (k, v) :: rest else p :: assoc_insert rest k v

theorem assoc_lookup_insert_self {α : Type} [DecidableEq α] {β : Type}
    (m : List (α × β)) (k : α) (v : β) :
    assoc_lookup (assoc_insert m k v) k = some v := by
  induction m with
  | nil => simp [assoc_insert, assoc_lookup]
  | cons p rest ih =>
      by_cases hp : p.1 = k
      · simp [assoc_insert, assoc_lookup, hp]
      · simp [assoc_insert, assoc_lookup, hp, ih]

theorem assoc_lookup_insert_ne {α : Type} [DecidableEq α] {β : Type}
    (m : List (α × β)) (k k' : α) (v : β) (h : k' ≠ k) :
    assoc_lookup (assoc_insert m k v) k' = assoc_lookup m k' := by
  have hkk' : ¬ k = k' := fun hk => h hk.symm
  induction m with
  | nil => simp [assoc_insert, assoc_lookup, hkk']
  | cons p rest ih =>
      by_cases hp : p.1 = k
      · have hne : ¬ p.1 = k' := by
          intro hk'; exact h (hk'.symm.trans hp)
        simp [assoc_insert, assoc_lookup, hp, hne, hkk']
      · by_cases hk' : p.1 = k'
        · simp [assoc_insert, assoc_lookup, hp, hk', h]
        · simp [assoc_insert, assoc_lookup, hp, hk', ih]

/-- List indexing used throughout the embedding (instruction fetch and
array indexing in the claims). -/
def list_nth {α : Type} : List α → Nat → Option α
  | [], _ => none
  | a :: _, 0 => some a
  | _ :: rest, n + 1 => list_nth rest n

/--
Modelled from the spec: `AsmLocation` (jodin-common/src/assembly/location.rs
is not under src/).  A branch target is an absolute instruction index, a
signed delta relative to the current program counter, or a symbolic label.
-/
inductive AsmLocation
  | ByteIndex (i : Nat)
  | InstructionDiff (diff : Int)
  | Label (l : String)

/--
Modelled from the spec: the `Value` tagged variant of
jodin-common/src/assembly/value.rs, which is not under src/; the variant
list follows spec section 3.  The f64 payload of Float is kept as an
opaque bit pattern, a Reference is a possibly-null cell whose contents are
snapshotted at creation (no claim below exercises aliasing), and Bytecode
carries the encoded byte vector exactly as in the source (`Bytecode =
Vec<u8>`).
-/
inductive Value
  | Empty
  | Byte (b : Nat)
  | Float (bits : Nat)
  | Integer (i : Int)
  | UInteger (u : Nat)
  | Str (s : String)
  | Dictionary (entries : List (String × Value))
  | Array (values : List Value)
  | Reference (target : Option Value)
  | Bytecode (bytes : List Nat)
  | Function (loc : AsmLocation)
  | Native

/--
Modelled from the spec: the `Asm` instruction enum of
jodin-common/src/assembly/instructions.rs, which is not under src/.  The
constructor list is the closed set of spec section 3, which also matches
every arm of `interpret_instruction` and `load` in
src/jodin-rs-vm/src/vm.rs plus the mvp enum in
src/jodin-asm/src/mvp/bytecode.rs.
-/
inductive Asm
  | Label (s : String)
  | PublicLabel (s : String)
  | Nop
  | Halt
  | Static
  | Push (v : Value)
  | Pop
  | Pack (n : Nat)
  | Clear
  | SetVar (i : Nat)
  | GetVar (i : Nat)
  | ClearVar (i : Nat)
  | NextVar (i : Nat)
  | Goto (loc : AsmLocation)
  | CondGoto (loc : AsmLocation)
  | Return
  | Call (loc : AsmLocation)
  | GetSymbol (s : String)
  | GetAttribute (name : String)
  | Index (n : Nat)
  | SendMessage
  | IntoReference
  | NativeMethod (name : String) (argc : Nat)
  | Deref
  | SetRef
  | Add
  | Subtract
  | Multiply
  | Divide
  | Remainder
  | And
  | Or
  | Not
  | BooleanAnd
  | BooleanOr
  | BooleanXor
  | Gt
  | GT0
  | Boolify

/--
Modelled from the spec: the recoverable fault kinds of section 7
(jodin-rs-vm/src/fault.rs is not under src/): MissingSymbol carrying the
unresolved label, and DoubleFault.
-/
inductive Fault
  | MissingSymbol (label : String)
  | DoubleFault

/--
Modelled from the spec: the fault table of section 3 maps each fault KIND
to a handler value, so the key type erases the MissingSymbol payload.
-/
inductive FaultKind
  | missingSymbol
  | doubleFault
deriving DecidableEq

/-- Modelled from the spec: the kind of a fault, used as fault-table key. -/
def Fault.kind : Fault → FaultKind
  | .MissingSymbol _ => .missingSymbol
  | .DoubleFault => .doubleFault

/--
Modelled from the spec: a `FaultHandle` records the saved call stack, the
saved operand stack, the fault and the target handler value (section 3).
-/
structure FaultHandle where
  stored_pc : List Nat
  stored_stack : List Value
  fault : Fault
  target_function : Value

/--
Modelled from the spec: the error kinds of jodin-rs-vm/src/error.rs (not
under src/) that vm.rs constructs: NoExitCode, ExitCodeInvalidType and
InvalidType, plus a catch-all message constructor for `anyhow!`
conversions.
-/
inductive VMError
  | NoExitCode
  | ExitCodeInvalidType (v : Value)
  | InvalidType (value : Value) (expected : String)
  | Message (s : String)

/-- Scope-operation names recorded by the instrumentation trace of the
memory model: which scope-stack manipulating MemoryTrait methods were
invoked, in order. -/
inductive ScopeOp
  | pushScope
  | popScope
  | globalScope
  | backScope
deriving DecidableEq

/-- One scope frame: a mapping from variable numbers to values. -/
def Scope : Type := List (Nat × Value)

/--
Modelled from the spec: the scoped memory of section 3 (the MemoryTrait
implementation is not under src/): an operand stack (head = top), a stack
of scopes (head = current scope, last = the always-retained global scope),
and the scope stacks saved by global_scope for back_scope to restore.  The
`trace` field is pure instrumentation added by this development: it
records, in order, which scope-stack operations were invoked; no source
field corresponds to it and no operation reads it.
-/
structure Memory where
  stack : List Value
  scopes : List Scope
  saved_scope_stacks : List (List Scope)
  trace : List ScopeOp

/-- Modelled from the spec: a fresh memory with an empty operand stack and
the single (empty) global scope. -/
def Memory.init : Memory :=
  { stack := [], scopes := [[]], saved_scope_stacks := [], trace := [] }

/-- Modelled from the spec: push onto the operand stack (LIFO). -/
def Memory.push (m : Memory) (v : Value) : Memory :=
  { m with stack := v :: m.stack }

/-- Modelled from the spec: pop the operand stack, returning the popped
value and the remaining memory, or none on an empty stack. -/
def Memory.pop (m : Memory) : Option (Value × Memory) :=
  match m.stack with
  | [] => none
  | v :: rest => some (v, { m with stack := rest })

/-- Modelled from the spec: SetVar acts on the top scope, overwriting the
slot. -/
def Memory.set_var (m : Memory) (i : Nat) (v : Value) : Memory :=
  match m.scopes with
  | [] => { m with scopes := [assoc_insert [] i v] }
  | s :: rest => { m with scopes := assoc_insert s i v :: rest }

/-- Modelled from the spec: GetVar reads the slot of the top scope. -/
def Memory.get_var (m : Memory) (i : Nat) : Option Value :=
  match m.scopes with
  | [] => none
  | s :: _ => assoc_lookup s i

/-- Modelled from the spec: scope push creates an empty frame. -/
def Memory.push_scope (m : Memory) : Memory :=
  { m with scopes := [] :: m.scopes, trace := m.trace ++ [ScopeOp.pushScope] }

/-- Modelled from the spec: scope pop discards the top frame; the global
scope is always retained. -/
def Memory.pop_scope (m : Memory) : Memory :=
  match m.scopes with
  | [] => { m with trace := m.trace ++ [ScopeOp.popScope] }
  | [g] => { m with scopes := [g], trace := m.trace ++ [ScopeOp.popScope] }
  | _ :: rest => { m with scopes := rest, trace := m.trace ++ [ScopeOp.popScope] }

/-- Modelled from the spec: global_scope saves the scope stack and
switches to the global scope only. -/
def Memory.global_scope (m : Memory) : Memory :=
  { m with
    scopes := [m.scopes.getLast?.getD []],
    saved_scope_stacks := m.scopes :: m.saved_scope_stacks,
    trace := m.trace ++ [ScopeOp.globalScope] }

/-- Modelled from the spec: back_scope restores the scope stack saved
before the last global_scope call. -/
def Memory.back_scope (m : Memory) : Memory :=
  match m.saved_scope_stacks with
  | [] => { m with trace := m.trace ++ [ScopeOp.backScope] }
  | s :: rest =>
      { m with scopes := s, saved_scope_stacks := rest,
               trace := m.trace ++ [ScopeOp.backScope] }

/-- Modelled from the spec: take_stack removes and returns the whole
operand stack (used when a fault is raised). -/
def Memory.take_stack (m : Memory) : List Value × Memory :=
  (m.stack, { m with stack := [] })

/-- Modelled from the spec: replace_stack overwrites the operand stack
with a previously saved one (used by end_fault). -/
def Memory.replace_stack (m : Memory) (s : List Value) : Memory :=
  { m with stack := s }

/-- Modelled from the spec: numeric payload of a value, used by the
arithmetic module (the ArithmeticsTrait implementation is not under
src/).  Floats are left out: floating point is not modelled. -/
def Value.as_int : Value → Option Int
  | .Byte b => some (b : Int)
  | .Integer i => some i
  | .UInteger u => some (u : Int)
  | _ => none

/-- Modelled from the spec: wrap an arithmetic result back into the
variant of the left (first-popped) operand; section 8 scenario S2 fixes
that Add of a UInt 0 (left) and an Int 7 (right) yields UInt 7. -/
def Value.rewrap : Value → Int → Option Value
  | .Byte _, n => some (.Byte ((n % 256).toNat))
  | .Integer _, n => some (.Integer n)
  | .UInteger _, n => some (.UInteger n.toNat)
  | _, _ => none

/-- Modelled from the spec: Value::from(bool) produces Byte 1 or Byte 0. -/
def Value.of_bool (b : Bool) : Value :=
  .Byte (if b then 1 else 0)

/-- Modelled from the spec: the arithmetic module's subtraction.  The
interpreter passes the first-popped (top) value as `left`; scenario S2
(`Push(Int 10), Push(Int 3), Subtract` leaves `10 - 3 = 7`) forces the
result to be the second-popped value minus the first-popped value. -/
def alu_sub (left right : Value) : Option Value := do
  let l ← left.as_int
  let r ← right.as_int
  left.rewrap (r - l)

/-- Modelled from the spec: the arithmetic module's addition. -/
def alu_add (left right : Value) : Option Value := do
  let l ← left.as_int
  let r ← right.as_int
  left.rewrap (l + r)

/-- Modelled from the spec: the arithmetic module's multiplication. -/
def alu_mult (left right : Value) : Option Value := do
  let l ← left.as_int
  let r ← right.as_int
  left.rewrap (l * r)

/-- Modelled from the spec: the arithmetic module's greater-than, with the
same second-popped `op` first-popped orientation as subtraction. -/
def alu_greater_than (left right : Value) : Option Value := do
  let l ← left.as_int
  let r ← right.as_int
  pure (Value.of_bool (decide (r > l)))

/-- Modelled from the spec: the arithmetic module's bitwise not on
integer-like values (spec section 9). -/
def alu_not : Value → Option Value
  | .Byte b => some (.Byte (255 - b))
  | .Integer i => some (.Integer (-(i + 1)))
  | .UInteger u => some (.UInteger (2 ^ 64 - 1 - u))
  | _ => none

/-- Modelled from the spec: Reference nullness (`is_null_ptr`). -/
def Value.is_null_ptr : Value → Bool
  | .Reference none => true
  | _ => false

/--
The full state of the virtual machine, following the fields of `struct VM`
in src/jodin-rs-vm/src/vm.rs: scoped memory, the continue flag, the
instruction vector, the label index, the call-counter stack, the anonymous
function counter, the active fault handle, the fault table and the
kernel-mode bit.  The arithmetic module, the stdio sinks and the plugin
manager are not state that any claim observes; the sinks and plugins are
out of the modelled fragment.
-/
structure VMState where
  memory : Memory
  cont : Bool
  instructions : List Asm
  label_to_instruction : List (String × Nat)
  counter_stack : List Nat
  next_anonymous_function : Nat
  handler : Option FaultHandle
  fault_table : List (FaultKind × Value)
  kernel_mode : Bool

/-- `program_counter` of vm.rs: the last counter-stack entry, or 0. -/
def VMState.program_counter (st : VMState) : Nat :=
  st.counter_stack.getLast?.getD 0

/-- `set_program_counter` of vm.rs: pop the top entry, push the new pc. -/
def VMState.set_program_counter (st : VMState) (pc : Nat) : VMState :=
  { st with counter_stack := st.counter_stack.dropLast ++ [pc] }

/-- Modelled from the spec: fault-table lookup (`get_fault_jump` of the
missing fault module) keyed by fault kind; per section 7 a fault with no
table entry terminates the VM with a diagnostic, modelled by the caller as
an abort. -/
def get_fault_jump (table : List (FaultKind × Value)) (f : Fault) : Option Value :=
  assoc_lookup table f.kind

/-- Result of interpreting one instruction, mirroring
`interpret_instruction`'s `Result<usize, VMError>` while distinguishing
Rust panics (process aborts) from returned errors.  `unmodelled` flags the
arms whose behaviour depends on repository code outside the modelled
fragment (message dispatch, native methods, reference mutation); no claim
reaches them. -/
inductive StepResult
  | panicked (msg : String)
  | unmodelled (why : String)
  | stepErr (st : VMState) (e : VMError)
  | stepOk (st : VMState) (next : Nat)

def msg_invalid_instruction : String := "Invalid instruction"
def msg_pop_empty : String := "pop on empty stack"
def msg_no_label : String := "No instruction found for label"
def msg_attribute_missing : String := "Attribute must exist"
def msg_no_var : String := "no var set"
def msg_pack_unavailable : String := "Tried to pop more values than available"
def msg_boolean_ops : String := "Can only use two booleans for bi-boolean ops"
def msg_alu_type : String := "arithmetic on non-numeric values"
def msg_deref_non_ptr : String := "Can only deref pointers"
def msg_null_reference : String := "null reference"
def msg_boolify : String := "Value can not be boolified"
def msg_gt0 : String := "Invalid value to check if greater than 0"
def msg_no_fault_entry : String := "no fault table entry"
def msg_fault_target : String := "Invalid value for fault jump target"
def msg_double_fault_loop : String := "recursive double fault"
def msg_label_registered : String := "label already registered"
def msg_missing_start_label : String := "start label not found"
def msg_vm_error : String := "VM Error encountered"
def msg_vm_failed : String := "VM Failed"
def msg_index_bounds : String := "instruction index out of bounds"
def why_send_message : String := "send_message dispatch (native methods, plugins, IO sinks) is outside the modelled fragment"
def why_set_ref : String := "SetRef mutates a shared reference cell; aliasing is outside the modelled fragment"
def why_float : String := "floating point is not modelled"

/-- The re-bindable label marker of the loader. -/
def rebindable_marker : String := "@@"

/-- The loader's `starts_with("@@")` test on a label, expressed over the
character list of the string. -/
def starts_with_marker (l : String) : Bool :=
  l.toList.take 2 == ['@', '@']

/-- `Goto`/`CondGoto` target resolution from vm.rs: ByteIndex is absolute,
InstructionDiff adds or subtracts from the current pointer (usize
arithmetic, truncated at zero like the debug-mode source would panic), and
a Label goes through the label index (a missing label panics). -/
def resolve_location (st : VMState) (instruction_pointer : Nat) :
    AsmLocation → Option Nat
  | .ByteIndex i => some i
  | .InstructionDiff diff =>
      if diff > 0 then some (instruction_pointer + diff.toNat)
      else some (instruction_pointer - (-diff).toNat)
  | .Label l => assoc_lookup st.label_to_instruction l

/--
`fault` of vm.rs (lines 827-854): look up the handler value for the fault,
save the whole counter stack and operand stack into a FaultHandle, replace
the counter stack by `[0]` and empty the operand stack, resolve the
handler: a Function(Label l) jumps to l's index, re-raising DoubleFault if
l is unbound; a Native target sets kernel mode and uses index 0; anything
else panics.  Finally the handle is stored, the handler index is pushed
and kernel mode is set.  The `depth` fuel bounds the DoubleFault
recursion, which the source would let overflow the call stack.
-/
def fault_fn : Nat → VMState → Fault → Except String VMState
  | 0, _, _ => .error msg_double_fault_loop
  | depth + 1, st, f =>
    match get_fault_jump st.fault_table f with
    | none => .error msg_no_fault_entry
    | some target =>
      let saved_counter := st.counter_stack
      let (saved_stack, memory') := st.memory.take_stack
      let st' := { st with counter_stack := [0], memory := memory' }
      let handle : FaultHandle :=
        { stored_pc := saved_counter, stored_stack := saved_stack,
          fault := f, target_function := target }
      match target with
      | .Function (.Label s) =>
          match assoc_lookup st.label_to_instruction s with
          | some i =>
              .ok { st' with handler := some handle,
                             counter_stack := st'.counter_stack ++ [i],
                             kernel_mode := true }
          | none => fault_fn depth st' .DoubleFault
      | .Native =>
          .ok { st' with handler := some handle,
                         counter_stack := st'.counter_stack ++ [0],
                         kernel_mode := true }
      | _ => .error msg_fault_target

/-- Shared body of the `Subtract`/`Add`/`Multiply`/`Gt` arm of
`interpret_instruction`: pop `left` first, pop `right` second, apply the
arithmetic module, push the result. -/
def arith_step (st : VMState) (instruction_pointer : Nat)
    (op : Value → Value → Option Value) : StepResult :=
  match st.memory.pop with
  | none => .panicked msg_pop_empty
  | some (left, m1) =>
    match m1.pop with
    | none => .panicked msg_pop_empty
    | some (right, m2) =>
      match op left right with
      | none => .panicked msg_alu_type
      | some output => .stepOk { st with memory := m2.push output } (instruction_pointer + 1)

/-- The `Pack` collection loop of vm.rs: pop `len` values, pushing each
popped value onto the FRONT of a deque. -/
def pack_loop : Nat → List Value → Memory → Option (List Value × Memory)
  | 0, deque, m => some (deque, m)
  | n + 1, deque, m =>
    match m.pop with
    | none => none
    | some (v, m') => pack_loop n (v :: deque) m'

/-- Shared body of the `BooleanAnd`/`BooleanOr`/`BooleanXor` arm: pop two
values, require both to be Bytes, combine their truthiness. -/
def boolean_step (st : VMState) (instruction_pointer : Nat)
    (op : Bool → Bool → Bool) : StepResult :=
  match st.memory.pop with
  | none => .panicked msg_pop_empty
  | some (left, m1) =>
    match m1.pop with
    | none => .panicked msg_pop_empty
    | some (right, m2) =>
      match left, right with
      | .Byte l, .Byte r =>
          .stepOk { st with memory := m2.push (Value.of_bool (op (l != 0) (r != 0))) }
            (instruction_pointer + 1)
      | _, _ => .stepErr { st with memory := m2 } (.Message msg_boolean_ops)

/--
`interpret_instruction` of vm.rs (lines 449-715), arm by arm in source
order.  Instructions that fall through to the source's catch-all
(`Static`, `Clear`, `NextVar`, `Index`, `Call`, `Divide`, `Remainder`,
`And`, `Or`) panic with "Invalid instruction".  `SendMessage`,
`IntoReference`, `NativeMethod` and `SetRef` dispatch into native methods,
plugins or shared-cell mutation and are flagged `unmodelled`; no claim
exercises them.
-/
def interpret_instruction (st : VMState) (bytecode : Asm)
    (instruction_pointer : Nat) : StepResult :=
  let next_instruction := instruction_pointer + 1
  match bytecode with
  | .Label _ | .PublicLabel _ | .Nop => .stepOk st next_instruction
  | .Pop =>
      match st.memory.pop with
      | none => .panicked msg_pop_empty
      | some (_, m') => .stepOk { st with memory := m' } next_instruction
  | .Return =>
      let popped := st.counter_stack.dropLast
      let next :=
        (popped.getLast?.map (fun v => if v ≠ 0 then v + 1 else 0)).getD 0
      .stepOk { st with counter_stack := popped } next
  | .Goto location =>
      match resolve_location st instruction_pointer location with
      | none => .panicked msg_no_label
      | some i => .stepOk st i
  | .CondGoto location =>
      match st.memory.pop with
      | none => .panicked msg_pop_empty
      | some (v, m') =>
        let cond : Bool :=
          match v with
          | .Byte b => b != 0
          | .Reference r => !(Value.Reference r).is_null_ptr
          | _ => false
        if cond then
          match resolve_location st instruction_pointer location with
          | none => .panicked msg_no_label
          | some i => .stepOk { st with memory := m' } i
        else
          .stepOk { st with memory := m' } next_instruction
  | .Halt => .stepOk { st with cont := false } next_instruction
  | .Push v => .stepOk { st with memory := st.memory.push v } next_instruction
  | .GetAttribute attr =>
      match st.memory.pop with
      | none => .panicked msg_pop_empty
      | some (d, m') =>
        match d with
        | .Dictionary dict =>
            match assoc_lookup dict attr with
            | none => .panicked msg_attribute_missing
            | some val => .stepOk { st with memory := m'.push val } next_instruction
        | .Reference (some inner) =>
            match inner with
            | .Dictionary dict =>
                match assoc_lookup dict attr with
                | none => .panicked msg_attribute_missing
                | some val => .stepOk { st with memory := m'.push val } next_instruction
            | v => .stepErr { st with memory := m' } (.InvalidType v "Dictionary")
        | .Reference none => .panicked msg_null_reference
        | v => .stepErr { st with memory := m' } (.InvalidType v "Dictionary")
  | .SetVar i =>
      match st.memory.pop with
      | none => .panicked msg_pop_empty
      | some (value, m') =>
          .stepOk { st with memory := m'.set_var i value } next_instruction
  | .GetVar i =>
      match st.memory.get_var i with
      | none => .panicked msg_no_var
      | some val =>
          .stepOk { st with memory := st.memory.push (.Reference (some val)) }
            next_instruction
  | .ClearVar _ => .stepOk st next_instruction
  | .GetSymbol s =>
      match assoc_lookup st.label_to_instruction s with
      | none =>
          match fault_fn 4 st (.MissingSymbol s) with
          | .error msg => .panicked msg
          | .ok st' => .stepOk st' next_instruction
      | some _ =>
          .stepOk { st with memory := st.memory.push (.Function (.Label s)) }
            next_instruction
  | .SendMessage => .unmodelled why_send_message
  | .IntoReference => .unmodelled why_send_message
  | .NativeMethod _ _ => .unmodelled why_send_message
  | .Pack len =>
      match pack_loop len [] st.memory with
      | none => .panicked msg_pack_unavailable
      | some (vector, m') =>
          .stepOk { st with memory := m'.push (.Array vector) } next_instruction
  | .BooleanAnd => boolean_step st instruction_pointer (fun l r => l && r)
  | .BooleanOr => boolean_step st instruction_pointer (fun l r => l || r)
  | .BooleanXor => boolean_step st instruction_pointer (fun l r => l ^^ r)
  | .Subtract => arith_step st instruction_pointer alu_sub
  | .Add => arith_step st instruction_pointer alu_add
  | .Multiply => arith_step st instruction_pointer alu_mult
  | .Gt => arith_step st instruction_pointer alu_greater_than
  | .Not =>
      match st.memory.pop with
      | none => .panicked msg_pop_empty
      | some (v, m') =>
        match alu_not v with
        | none => .panicked msg_alu_type
        | some next => .stepOk { st with memory := m'.push next } next_instruction
  | .Deref =>
      match st.memory.pop with
      | none => .panicked msg_pop_empty
      | some (v, m') =>
        match v with
        | .Reference (some inner) =>
            .stepOk { st with memory := m'.push inner } next_instruction
        | .Reference none => .panicked msg_null_reference
        | _ => .panicked msg_deref_non_ptr
  | .Boolify =>
      match st.memory.pop with
      | none => .panicked msg_pop_empty
      | some (v, m') =>
        match v with
        | .Byte b => .stepOk { st with memory := m'.push (Value.of_bool (b != 0)) } next_instruction
        | .Integer i => .stepOk { st with memory := m'.push (Value.of_bool (i != 0)) } next_instruction
        | .UInteger u => .stepOk { st with memory := m'.push (Value.of_bool (u != 0)) } next_instruction
        | .Reference (some inner) =>
            .stepOk { st with memory := m'.push (Value.of_bool (!inner.is_null_ptr)) } next_instruction
        | .Reference none => .panicked msg_null_reference
        | _ => .panicked msg_boolify
  | .GT0 =>
      match st.memory.pop with
      | none => .panicked msg_pop_empty
      | some (v, m') =>
        match v with
        | .Byte b => .stepOk { st with memory := m'.push (Value.of_bool (decide (b > 0))) } next_instruction
        | .Float _ => .unmodelled why_float
        | .Integer i => .stepOk { st with memory := m'.push (Value.of_bool (decide (i > 0))) } next_instruction
        | .UInteger u => .stepOk { st with memory := m'.push (Value.of_bool (decide (u > 0))) } next_instruction
        | _ => .panicked msg_gt0
  | .SetRef => .unmodelled why_set_ref
  | _ => .panicked msg_invalid_instruction

/-- Result of `run_from_index` / the outer interpreter loop: either the
fuel ran out (`timeout`), a Rust panic aborted the process (`panicked`),
the execution reached an arm outside the modelled fragment
(`unmodelled`), or the routine returned its `Result<u32, VMError>`
(`done`).  Every constructor carries the machine state reached at that
point; for `timeout`, `panicked` and `unmodelled` the state is
instrumentation only. -/
inductive RunResult
  | timeout (st : VMState)
  | panicked (msg : String) (st : VMState)
  | unmodelled (why : String) (st : VMState)
  | done (st : VMState) (res : Except VMError Nat)

/-- The state carried by a run result. -/
def RunResult.state : RunResult → VMState
  | .timeout st => st
  | .panicked _ st => st
  | .unmodelled _ st => st
  | .done st _ => st

/-- The `Result<u32, VMError>` of a completed `run_from_index`, if the
routine returned at all. -/
def RunResult.result : RunResult → Option (Except VMError Nat)
  | .done _ res => some res
  | _ => none

/-- Whether the run aborted with a Rust panic. -/
def RunResult.is_panicked : RunResult → Bool
  | .panicked _ _ => true
  | _ => false

/-- The loop guard of `run_from_index`:
`self.cont && (1..=self.instructions.len() - 1).contains(&self.program_counter())`. -/
def loop_guard (st : VMState) : Bool :=
  st.cont && (decide (1 ≤ st.program_counter)
    && decide (st.program_counter ≤ st.instructions.length - 1))

/-- `end_fault` of vm.rs: restore the counter stack and the operand stack
from the fault handle. -/
def VMState.end_fault (st : VMState) (handle : FaultHandle) : VMState :=
  { st with counter_stack := handle.stored_pc,
            memory := st.memory.replace_stack handle.stored_stack }

/-- The exit-code epilogue of `run_from_index` (vm.rs lines 819-824): pop
one value; none is a NoExitCode error, a UInteger is success with the
value cast `as u32` (truncation modulo `2 ^ 32`), anything else is an
ExitCodeInvalidType error. -/
def finish_run (st : VMState) : RunResult :=
  match st.memory.pop with
  | none => .done st (.error .NoExitCode)
  | some (v, m') =>
    match v with
    | .UInteger u => .done { st with memory := m' } (.ok (u % 2 ^ 32))
    | other => .done { st with memory := m' } (.error (.ExitCodeInvalidType other))

/--
The fetch/execute loop of `run_from_index` (vm.rs lines 795-818): while
the guard holds, fetch the instruction at the program counter, interpret
it, and store the returned next index with `set_program_counter`; a
returned `VMError` propagates out of the routine immediately (the `?`
operator), skipping the epilogue.  When the inner loop stops, an active
fault handle is taken, kernel mode is cleared, `end_fault` restores the
saved stacks and the loop re-enters; with no handle the loop breaks to
the exit-code epilogue.
-/
def run_loop : Nat → VMState → RunResult
  | 0, st => .timeout st
  | fuel + 1, st =>
    if loop_guard st then
      match list_nth st.instructions st.program_counter with
      | none => .panicked msg_index_bounds st
      | some instruction =>
        match interpret_instruction st instruction st.program_counter with
        | .panicked msg => .panicked msg st
        | .unmodelled why => .unmodelled why st
        | .stepErr st' e => .done st' (.error e)
        | .stepOk st' next => run_loop fuel (st'.set_program_counter next)
    else
      match st.handler with
      | none => finish_run st
      | some handle =>
          run_loop fuel
            (VMState.end_fault { st with handler := none, kernel_mode := false } handle)

/-- `run_from_index` of vm.rs: set the continue flag, push the start index
onto the counter stack and enter the loop. -/
def run_from_index (fuel : Nat) (st : VMState) (index : Nat) : RunResult :=
  run_loop fuel
    { st with cont := true, counter_stack := st.counter_stack ++ [index] }

/-- `run` of vm.rs: resolve the start label through the label index (a
missing label panics, as `HashMap` indexing does) and run from there. -/
def run (fuel : Nat) (st : VMState) (start_label : String) : RunResult :=
  match assoc_lookup st.label_to_instruction start_label with
  | none => .panicked msg_missing_start_label st
  | some start_counter => run_from_index fuel st start_counter

/-- Result of the label-binding / appending phase of `load`. -/
inductive LoadPhase1
  | panicked (msg : String) (st : VMState)
  | ok (st : VMState) (statics : List Nat)

/-- The per-instruction label binding of `load` (vm.rs lines 744-757):
a vacant label is inserted; an occupied label is overwritten when it
starts with `@@` and otherwise panics with a duplicate-label error. -/
def bind_label (labels : List (String × Nat)) (lbl : String) (idx : Nat) :
    Except String (List (String × Nat)) :=
  match assoc_lookup labels lbl with
  | some _ =>
      if starts_with_marker lbl then .ok (assoc_insert labels lbl idx)
      else .error msg_label_registered
  | none => .ok (assoc_insert labels lbl idx)

/-- The label extracted by the instruction match at the top of `load`'s
loop: Label and PublicLabel carry one, nothing else does. -/
def label_of : Asm → Option String
  | .Label lbl => some lbl
  | .PublicLabel lbl => some lbl
  | _ => none

/-- Whether `load`'s loop marks this instruction as a static entry
point. -/
def is_static_marker : Asm → Bool
  | .Static => true
  | _ => false

/--
The appending loop of `load` (vm.rs lines 722-764): for each incoming
instruction, bind its label (if any) at the absolute index
`start_index + i` — which equals the current instruction-vector length,
since each instruction is appended in turn — record static entry points,
and append the instruction.  Duplicate non-`@@` labels panic.
-/
def load_core (st : VMState) (statics : List Nat) : List Asm → LoadPhase1
  | [] => .ok st statics
  | asm :: rest =>
    let label_index := st.instructions.length
    let bound : Except String (List (String × Nat)) :=
      match label_of asm with
      | some lbl => bind_label st.label_to_instruction lbl label_index
      | none => .ok st.label_to_instruction
    match bound with
    | .error msg => .panicked msg st
    | .ok labels' =>
        let statics' :=
          if is_static_marker asm then statics ++ [label_index] else statics
        load_core
          { st with label_to_instruction := labels',
                    instructions := st.instructions ++ [asm] }
          statics' rest

/-- Result of `load` / `load_static`, mirroring `RunResult`. -/
inductive LoadResult
  | timeout (st : VMState)
  | panicked (msg : String) (st : VMState)
  | unmodelled (why : String) (st : VMState)
  | loaded (st : VMState)

/-- The state carried by a load result. -/
def LoadResult.state : LoadResult → VMState
  | .timeout st => st
  | .panicked _ st => st
  | .unmodelled _ st => st
  | .loaded st => st

/-- Whether the load aborted with a Rust panic. -/
def LoadResult.is_panicked : LoadResult → Bool
  | .panicked _ _ => true
  | _ => false

/-- The static-execution phase of `load` (vm.rs lines 767-770): run the
interpreter from each recorded static entry point, IGNORING the returned
`Result` (`self.run_from_index(static_instruction_index);`).  A Rust
panic still aborts.  The source iterates a HashSet, whose order is
unspecified; insertion order is used here and no claim depends on it. -/
def run_statics (fuel : Nat) (st : VMState) : List Nat → LoadResult
  | [] => .loaded st
  | idx :: rest =>
    match run_from_index fuel st idx with
    | .timeout st' => .timeout st'
    | .panicked msg st' => .panicked msg st'
    | .unmodelled why st' => .unmodelled why st'
    | .done st' _ => run_statics fuel st' rest

/-- `load` of vm.rs (lines 721-771): append and bind, then execute the
static entry points. -/
def load (fuel : Nat) (st : VMState) (asm : List Asm) : LoadResult :=
  match load_core st [] asm with
  | .panicked msg st' => .panicked msg st'
  | .ok st' statics => run_statics fuel st' statics

/-- `load_static` of vm.rs (lines 773-785): remember the pre-load length,
load, switch the memory to the global scope, run from the remembered
start index — a VMError panics via `expect`, a non-zero exit code panics
with "VM Failed" — and restore the scope stack with back_scope. -/
def load_static (fuel : Nat) (st : VMState) (asm : List Asm) : LoadResult :=
  let start_index := st.instructions.length
  match load fuel st asm with
  | .timeout st' => .timeout st'
  | .panicked msg st' => .panicked msg st'
  | .unmodelled why st' => .unmodelled why st'
  | .loaded st' =>
    let st'' := { st' with memory := st'.memory.global_scope }
    match run_from_index fuel st'' start_index with
    | .timeout st3 => .timeout st3
    | .panicked msg st3 => .panicked msg st3
    | .unmodelled why st3 => .unmodelled why st3
    | .done st3 (.error _) => .panicked msg_vm_error st3
    | .done st3 (.ok u) =>
        if u ≠ 0 then .panicked msg_vm_failed st3
        else .loaded { st3 with memory := st3.memory.back_scope }

/-- `VMBuilder::build` of vm.rs (lines 871-901): the fresh VM state —
continue flag false, the instruction vector initialized to the single
instruction `[Nop]`, empty label index, empty counter stack, no fault
handle, empty fault table, user mode.  The memory module is the
injected one. -/
def build_vm (memory : Memory) : VMState :=
  { memory := memory,
    cont := false,
    instructions := [Asm.Nop],
    label_to_instruction := [],
    counter_stack := [],
    next_anonymous_function := 0,
    handler := none,
    fault_table := [],
    kernel_mode := false }

/-- 64-bit wrap-around, the release-mode semantics of u64 arithmetic. -/
def wrap64 (n : Nat) : Nat := n % 2 ^ 64

/-- `u32::wrapping_sub` on Nat-represented u32 values. -/
def wrapping_sub_u32 (a b : Nat) : Nat := (a % 2 ^ 32 + 2 ^ 32 - b % 2 ^ 32) % 2 ^ 32

/-- `VERSION_STRING` of src/jodin-asm/src/asm_version.rs. -/
def version_string : String := "1.0"

/-- The formatted full version string of `to_magic_number`. -/
def version_string_full : String := "jodin_asm_version_" ++ version_string

/-- One step of the summation loop in `to_magic_number`: the accumulator
carries the byte index and the running 64-bit sum. -/
def magic_step (acc : Nat × Nat) (byte : Nat) : Nat × Nat :=
  let index := acc.1
  let sum := acc.2
  let mult := index + 1
  let pow := wrapping_sub_u32 31 index
  let add := wrap64 (wrap64 (byte ^ pow) * mult)
  (index + 1, wrap64 (sum + add))

/-- `Version::to_magic_number` of src/jodin-asm/src/asm_version.rs: fold
the summation step over the ASCII bytes of the full version string. -/
def to_magic_number : Nat :=
  ((version_string_full.toList.map Char.toNat).foldl magic_step (0, 0)).2

/-- `Version::verify_magic_number`: compare against the computed magic. -/
def verify_magic_number (number : Nat) : Bool :=
  to_magic_number == number

/-- The claim's closed-form description of the magic number: the 64-bit
wrap of the sum over the ASCII bytes of `byte_i ^ (31 - i) * (i + 1)`,
with the exponent computed by u32 wrapping subtraction.  Stated from the
spec's words, to be compared against `to_magic_number`. -/
def magic_number_formula : Nat :=
  wrap64 <|
    (List.range (version_string_full.toList.length)).foldl
      (fun sum i =>
        sum + (version_string_full.toList.map Char.toNat).getD i 0 ^
            wrapping_sub_u32 31 i * (i + 1))
      0

/-- The operand stack of the state inside a step result, when the step
produced one. -/
def StepResult.state_stack : StepResult → Option (List Value)
  | .stepOk st _ => some st.memory.stack
  | .stepErr st _ => some st.memory.stack
  | _ => none

def lbl_main : String := "main"
def lbl_handler : String := "handler"
def lbl_ghost : String := "ghost"
def lbl_s : String := "s"

/-- The spec's scenario S2 program:
`[Push(Int 10), Push(Int 3), Subtract, Push(UInt 0), Add, Return]`. -/
def s2_program : List Asm :=
  [.Push (.Integer 10), .Push (.Integer 3), .Subtract,
   .Push (.UInteger 0), .Add, .Return]

/-- The fresh VM with the S2 program loaded; its first instruction sits at
index 1, after the builder's Nop. -/
def s2_loaded : VMState := (load 50 (build_vm Memory.init) s2_program).state

/-- The S2 machine at the point just before Subtract executes: Int 3 on
top of Int 10. -/
def s2_mid : VMState :=
  { s2_loaded with memory := { s2_loaded.memory with
      stack := [.Integer 3, .Integer 10] } }

/-- The spec's scenario S6 program: `main` executes GetSymbol on the
unbound label `ghost` and halts; the fault handler label pushes UInt 2 and
halts. -/
def s6_program : List Asm :=
  [.Label lbl_main, .GetSymbol lbl_ghost, .Halt,
   .Label lbl_handler, .Push (.UInteger 2), .Halt]

/-- The S6 machine: program loaded (main at index 1, handler at index 4)
and the fault table binding MissingSymbol to Function(Label "handler"). -/
def s6_loaded : VMState :=
  { (load 60 (build_vm Memory.init) s6_program).state with
    fault_table :=
      [(FaultKind.missingSymbol, Value.Function (AsmLocation.Label lbl_handler))] }

/-- An assembly with one static entry point; the marker lands at absolute
index 2. -/
def static_program : List Asm :=
  [.Label lbl_s, .Static, .Push (.UInteger 0), .Return]

/-- Operand stack with Int 1 pushed first and Int 2 pushed second. -/
def c2_state : VMState :=
  { build_vm Memory.init with memory := { Memory.init with
      stack := [.Integer 2, .Integer 1] } }

/-- A machine about to execute SetVar 0 with Int 5 on the stack. -/
def c7_st0 : VMState :=
  { build_vm Memory.init with memory := { Memory.init with
      stack := [.Integer 5] } }

/-- The machine after SetVar 0: slot 0 of the top scope holds Int 5. -/
def c7_st1 : VMState :=
  { build_vm Memory.init with memory := { Memory.init with
      scopes := [[(0, Value.Integer 5)]] } }

theorem pack_loop_spec (n : Nat) :
    ∀ (m : Memory) (deque : List Value), n ≤ m.stack.length →
      pack_loop n deque m =
        some ((m.stack.take n).reverse ++ deque,
          { m with stack := m.stack.drop n }) := by
  induction n with
  | zero => intro m deque _; rfl
  | succ n ih =>
      intro m deque h
      match hm : m.stack with
      | [] => rw [hm] at h; exact absurd h (by simp)
      | v :: rest =>
          have hlen : n ≤ rest.length := by
            rw [hm] at h; simpa using h
          have hpop : m.pop = some (v, { m with stack := rest }) := by
            simp [Memory.pop, hm]
          have := ih { m with stack := rest } (v :: deque) (by simpa using hlen)
          simp only [pack_loop, hpop, this, hm]
          simp

/-- C1: the arithmetic instructions Subtract, Add, Multiply and Gt pop
`left` first and `right` second — the first-popped, most recently pushed
value is passed to the arithmetic module as `left` — and for the S2
program the machine leaves 10 - 3 = 7 on the stack after Subtract and
`run` returns exit code 7. -/
theorem c1_arith_pop_order_and_s2 :
    (∀ (st : VMState) (pc : Nat) (l r : Value) (rest : List Value) (o : Value),
      st.memory.stack = l :: r :: rest →
        (alu_sub l r = some o →
          interpret_instruction st .Subtract pc =
            .stepOk { st with memory := { st.memory with stack := o :: rest } } (pc + 1)) ∧
        (alu_add l r = some o →
          interpret_instruction st .Add pc =
            .stepOk { st with memory := { st.memory with stack := o :: rest } } (pc + 1)) ∧
        (alu_mult l r = some o →
          interpret_instruction st .Multiply pc =
            .stepOk { st with memory := { st.memory with stack := o :: rest } } (pc + 1)) ∧
        (alu_greater_than l r = some o →
          interpret_instruction st .Gt pc =
            .stepOk { st with memory := { st.memory with stack := o :: rest } } (pc + 1))) ∧
    (interpret_instruction s2_mid .Subtract 3).state_stack = some [Value.Integer 7] ∧
    (run_from_index 50 s2_loaded 1).result = some (.ok 7) := by
  refine ⟨?_, by rfl, by rfl⟩
  intro st pc l r rest o hstack
  have hpop1 : st.memory.pop = some (l, { st.memory with stack := r :: rest }) := by
    simp [Memory.pop, hstack]
  have hpop2 : Memory.pop { st.memory with stack := r :: rest } =
      some (r, { st.memory with stack := rest }) := by
    simp [Memory.pop]
  refine ⟨?_, ?_, ?_, ?_⟩ <;>
    · intro hop
      simp [interpret_instruction, arith_step, hpop1, hpop2, hop, Memory.push]

/-- Witness for C1: the pop-order clause applied to the concrete
Subtract of S2, stack Int 3 over Int 10, result Int 7. -/
theorem c1_witness :
    interpret_instruction s2_mid .Subtract 3 =
      .stepOk { s2_mid with memory := { s2_mid.memory with
                  stack := [Value.Integer 7] } } 4 := by
  exact (c1_arith_pop_order_and_s2.1 s2_mid 3 (.Integer 3) (.Integer 10) []
    (.Integer 7) rfl).1 rfl

/-- C2 counterexample: with Int 1 pushed first and Int 2 second,
Pack(2) produces the Array `[Int 1, Int 2]` — the value pushed first ends
at index 0, and index n - 1 = 1 does NOT hold it. -/
theorem c2_counterexample :
    (interpret_instruction c2_state (.Pack 2) 1).state_stack =
      some [Value.Array [Value.Integer 1, Value.Integer 2]] ∧
    list_nth [Value.Integer 1, Value.Integer 2] (2 - 1) ≠
      some (Value.Integer 1) := by
  refine ⟨by rfl, ?_⟩
  intro h
  simp [list_nth] at h

/-- C2 amended: Pack(n) pops n values, collecting them with push_front,
and pushes an Array equal to the reversal of the n popped values — the
value pushed FIRST (deepest of the n) ends at index 0 and the most
recently pushed value at index n - 1. -/
theorem c2_pack_order (st : VMState) (n pc : Nat)
    (h : n ≤ st.memory.stack.length) :
    interpret_instruction st (.Pack n) pc =
      .stepOk { st with memory := { st.memory with
          stack := Value.Array ((st.memory.stack.take n).reverse) ::
            st.memory.stack.drop n } } (pc + 1) := by
  have hl := pack_loop_spec n st.memory [] h
  simp [interpret_instruction, hl, Memory.push]

/-- Witness for C2 amended: Pack(2) on the concrete two-value stack. -/
theorem c2_pack_order_witness :
    interpret_instruction c2_state (.Pack 2) 1 =
      .stepOk { c2_state with memory := { c2_state.memory with
          stack := [Value.Array [Value.Integer 1, Value.Integer 2]] } } 2 := by
  exact c2_pack_order c2_state 2 1 (by decide)

/-- C3: with MissingSymbol bound to Function(Label "handler") and the
handler bound at index 4, running `main` (which executes
GetSymbol "ghost") does NOT exit with code 2: the next-index returned for
the faulting instruction overwrites the handler index that `fault` pushed,
the handler never runs, and `run` returns the NoExitCode error with
kernel mode cleared. -/
theorem c3_fault_handler_clobbered :
    assoc_lookup s6_loaded.label_to_instruction lbl_handler = some 4 ∧
    (run 60 s6_loaded lbl_main).result = some (.error VMError.NoExitCode) ∧
    (run 60 s6_loaded lbl_main).state.kernel_mode = false := by
  exact ⟨rfl, rfl, rfl⟩

/-- C7 counterexample: after SetVar 0 stores Int 5, interpreting
ClearVar 0 leaves the machine unchanged and GetVar still finds the
binding of slot 0. -/
theorem c7_counterexample :
    interpret_instruction c7_st0 (.SetVar 0) 1 = .stepOk c7_st1 2 ∧
    interpret_instruction c7_st1 (.ClearVar 0) 2 = .stepOk c7_st1 3 ∧
    Memory.get_var c7_st1.memory 0 = some (Value.Integer 5) ∧
    Memory.get_var c7_st1.memory 0 ≠ none := by
  refine ⟨rfl, rfl, rfl, ?_⟩
  rw [show Memory.get_var c7_st1.memory 0 = some (Value.Integer 5) from rfl]
  simp

/-- C7 amended: interpreting ClearVar(i) is a no-op — the machine state is
unchanged (the slot stays bound) and control falls through. -/
theorem c7_clearvar_noop (st : VMState) (i pc : Nat) :
    interpret_instruction st (.ClearVar i) pc = .stepOk st (pc + 1) := rfl

/-- C8: to_magic_number deterministically computes the 64-bit constant
12736432734769342504, which equals the spec's closed-form wrapping sum
over the ASCII bytes of "jodin_asm_version_1.0", and verify_magic_number
accepts exactly that constant. -/
theorem c8_magic_number :
    to_magic_number = 12736432734769342504 ∧
    to_magic_number = magic_number_formula ∧
    to_magic_number < 2 ^ 64 ∧
    ∀ number : Nat, verify_magic_number number = true ↔ number = to_magic_number := by
  refine ⟨by decide, by decide, by decide, ?_⟩
  intro number
  simp only [verify_magic_number, beq_iff_eq]
  exact eq_comm

/-- A machine whose outer loop is about to exit: continue flag false, no
fault handle, and a UInteger exit value too large for u32 on the stack. -/
def c6_state : VMState :=
  { build_vm Memory.init with memory := { Memory.init with
      stack := [.UInteger (2 ^ 32 + 7)] } }

/-- The machine after the exit-code pop of c6_state. -/
def c6_done : VMState :=
  { c6_state with memory := { c6_state.memory with stack := [] } }

/-- A machine about to exit with a non-UInteger on the stack. -/
def c6w : VMState :=
  { build_vm Memory.init with memory := { Memory.init with
      stack := [Value.Empty] } }

/-- C6 counterexample: when the loop exits with UInteger (2^32 + 7) on
the stack, run returns success with 7 — the `as u32` cast truncates — so
the exit value is NOT the popped value u. -/
theorem c6_counterexample :
    loop_guard c6_state = false ∧ c6_state.handler = none ∧
    run_loop 1 c6_state = .done c6_done (Except.ok 7) ∧
    (2 ^ 32 + 7 : Nat) ≠ 7 := by
  exact ⟨rfl, rfl, rfl, by decide⟩

/-- C6 amended: whenever the outer loop exits (guard false) with no
active fault handle, run pops one value: an empty stack returns the
NoExitCode error, UInteger(u) returns success with u truncated to 32 bits
(u mod 2^32, equal to u whenever u < 2^32), and any other variant returns
the ExitCodeInvalidType error. -/
theorem c6_exit_code_pop (fuel : Nat) (st : VMState)
    (hg : loop_guard st = false) (hh : st.handler = none) :
    (st.memory.stack = [] →
        run_loop (fuel + 1) st = .done st (.error .NoExitCode)) ∧
    (∀ u rest, st.memory.stack = Value.UInteger u :: rest →
        run_loop (fuel + 1) st =
          .done { st with memory := { st.memory with stack := rest } }
            (.ok (u % 2 ^ 32))) ∧
    (∀ v rest, st.memory.stack = v :: rest → (∀ u, v ≠ Value.UInteger u) →
        run_loop (fuel + 1) st =
          .done { st with memory := { st.memory with stack := rest } }
            (.error (.ExitCodeInvalidType v))) := by
  have hrun : run_loop (fuel + 1) st = finish_run st := by
    simp [run_loop, hg, hh]
  refine ⟨?_, ?_, ?_⟩
  · intro h; rw [hrun]; simp [finish_run, Memory.pop, h]
  · intro u rest h; rw [hrun]; simp [finish_run, Memory.pop, h]
  · intro v rest h hne
    rw [hrun]
    cases v <;>
      first
        | exact absurd rfl (hne _)
        | simp [finish_run, Memory.pop, h]

/-- Witness for C6 amended: popping a non-UInteger exit value. -/
theorem c6_exit_code_pop_witness :
    run_loop 1 c6w =
      .done { c6w with memory := { c6w.memory with stack := [] } }
        (.error (.ExitCodeInvalidType Value.Empty)) :=
  (c6_exit_code_pop 0 c6w rfl rfl).2.2 Value.Empty [] rfl
    (fun _ h => Value.noConfusion h)

/-- Extract the new-labels map of a successful bind_label: both the
vacant and the re-bindable branch insert the label at the index. -/
theorem bind_label_ok (labels : List (String × Nat)) (lbl : String)
    (idx : Nat) (labels' : List (String × Nat))
    (h : bind_label labels lbl idx = .ok labels') :
    labels' = assoc_insert labels lbl idx := by
  unfold bind_label at h
  cases hl : assoc_lookup labels lbl <;> rw [hl] at h
  · exact (Except.ok.inj h).symm
  · by_cases hm : starts_with_marker lbl
    · rw [if_pos hm] at h
      exact (Except.ok.inj h).symm
    · rw [if_neg hm] at h
      cases h

/-- Case split for a lookup in an updated association list. -/
theorem assoc_lookup_insert_cases {α : Type} [DecidableEq α] {β : Type}
    (m : List (α × β)) (k l : α) (v w : β)
    (h : assoc_lookup (assoc_insert m k v) l = some w) :
    (l = k ∧ w = v) ∨ (l ≠ k ∧ assoc_lookup m l = some w) := by
  by_cases hlk : l = k
  · subst hlk
    rw [assoc_lookup_insert_self] at h
    exact Or.inl ⟨rfl, (Option.some.inj h).symm⟩
  · rw [assoc_lookup_insert_ne _ _ _ _ hlk] at h
    exact Or.inr ⟨hlk, h⟩

/-- Labels bound by load_core refer to indices at least as large as one,
provided the instruction vector already has at least one entry (as the
builder guarantees) and all previously bound labels do. -/
theorem load_core_labels_ge_one :
    ∀ (asms : List Asm) (st : VMState) (statics statics' : List Nat)
      (st' : VMState),
      load_core st statics asms = .ok st' statics' →
      1 ≤ st.instructions.length →
      (∀ l v, assoc_lookup st.label_to_instruction l = some v → 1 ≤ v) →
      ∀ l v, assoc_lookup st'.label_to_instruction l = some v → 1 ≤ v := by
  intro asms
  induction asms with
  | nil =>
      intro st statics statics' st' h _ hbase
      cases h
      exact hbase
  | cons a rest ih =>
      intro st statics statics' st' h hlen hbase
      simp only [load_core] at h
      split at h
      next msg heq => exact LoadPhase1.noConfusion h
      next labels' heq =>
        refine ih _ _ _ _ h (by simp) ?_
        intro l v hv
        simp only at hv
        cases hla : label_of a <;> simp only [hla] at heq
        · cases heq
          exact hbase _ _ hv
        · rw [bind_label_ok _ _ _ _ heq] at hv
          rcases assoc_lookup_insert_cases _ _ _ _ _ hv with ⟨_, hveq⟩ | ⟨_, hold⟩
          · subst hveq
            omega
          · exact hbase _ _ hold

/-- C9: the builder initializes the instruction vector to [Nop]; the loop
guard admits only program counters in [1, length); a program counter of 0
always fails the guard; and load binds labels only to indices at least
one when the instruction vector is already nonempty, so no label ever
refers to index 0. -/
theorem c9_nop_slot_and_guard :
    (build_vm Memory.init).instructions = [Asm.Nop] ∧
    (∀ st : VMState, loop_guard st = true →
        1 ≤ st.program_counter ∧ st.program_counter < st.instructions.length) ∧
    (∀ st : VMState, st.program_counter = 0 → loop_guard st = false) ∧
    (∀ (asms : List Asm) (st : VMState) (statics statics' : List Nat)
        (st' : VMState),
      load_core st statics asms = .ok st' statics' →
      1 ≤ st.instructions.length →
      (∀ l v, assoc_lookup st.label_to_instruction l = some v → 1 ≤ v) →
      ∀ l v, assoc_lookup st'.label_to_instruction l = some v → 1 ≤ v) := by
  refine ⟨rfl, ?_, ?_, load_core_labels_ge_one⟩
  · intro st h
    simp [loop_guard] at h
    omega
  · intro st h
    simp [loop_guard, h]

/-- A machine mid-loop: counter 1 inside a two-instruction vector. -/
def c9w : VMState := { build_vm Memory.init with
  cont := true
  instructions := [Asm.Nop, Asm.Nop]
  counter_stack := [1] }

/-- The machine after loading a single Label instruction into a fresh
VM: the label is bound to index 1. -/
def c9w_loaded : VMState := { build_vm Memory.init with
  label_to_instruction := [(lbl_main, 1)]
  instructions := [Asm.Nop, Asm.Label lbl_main] }

/-- Witness for C9: the guard bounds at a concrete mid-loop machine, and
the index bound for a concrete one-label load is at least 1. -/
theorem c9_witness :
    (1 ≤ c9w.program_counter ∧ c9w.program_counter < c9w.instructions.length) ∧
    1 ≤ 1 := by
  refine ⟨c9_nop_slot_and_guard.2.1 c9w rfl, ?_⟩
  exact c9_nop_slot_and_guard.2.2.2 [Asm.Label lbl_main] (build_vm Memory.init)
    [] [] c9w_loaded rfl (by decide)
    (fun l v hv => by simp [assoc_lookup] at hv) lbl_main 1 rfl

/-- The label carried by the instruction at append position i, if any. -/
def nth_label (asms : List Asm) (i : Nat) : Option String :=
  (list_nth asms i).bind label_of

/-- A bound non-re-bindable label makes bind_label fail with the
duplicate-label panic. -/
theorem bind_label_occupied_nonmarker (labels : List (String × Nat))
    (lbl : String) (idx v : Nat)
    (hl : assoc_lookup labels lbl = some v)
    (hm : starts_with_marker lbl = false) :
    bind_label labels lbl idx = .error msg_label_registered := by
  simp [bind_label, hl, hm]

/-- A binding of a non-re-bindable label survives the rest of a
successful load: a later occupied hit on the same label would have
panicked instead. -/
theorem load_core_persist_nonmarker :
    ∀ (asms : List Asm) (st : VMState) (statics statics' : List Nat)
      (st' : VMState) (l : String) (v : Nat),
      load_core st statics asms = .ok st' statics' →
      assoc_lookup st.label_to_instruction l = some v →
      starts_with_marker l = false →
      assoc_lookup st'.label_to_instruction l = some v := by
  intro asms
  induction asms with
  | nil =>
      intro st statics statics' st' l v h hb _
      cases h
      exact hb
  | cons a rest ih =>
      intro st statics statics' st' l v h hb hm
      simp only [load_core] at h
      split at h
      next msg heq => exact LoadPhase1.noConfusion h
      next labels' heq =>
        refine ih _ _ _ _ l v h ?_ hm
        simp only
        cases hla : label_of a <;> simp only [hla] at heq
        · cases heq
          exact hb
        · next lbl =>
          by_cases hll : l = lbl
          · subst hll
            rw [bind_label_occupied_nonmarker _ _ _ _ hb hm] at heq
            exact Except.noConfusion heq
          · rw [bind_label_ok _ _ _ _ heq]
            rw [assoc_lookup_insert_ne _ _ _ _ hll]
            exact hb

/-- Any binding survives a successful load whose instructions never
mention its label. -/
theorem load_core_persist_nooccur :
    ∀ (asms : List Asm) (st : VMState) (statics statics' : List Nat)
      (st' : VMState) (l : String) (v : Nat),
      load_core st statics asms = .ok st' statics' →
      assoc_lookup st.label_to_instruction l = some v →
      (∀ j, nth_label asms j ≠ some l) →
      assoc_lookup st'.label_to_instruction l = some v := by
  intro asms
  induction asms with
  | nil =>
      intro st statics statics' st' l v h hb _
      cases h
      exact hb
  | cons a rest ih =>
      intro st statics statics' st' l v h hb hno
      simp only [load_core] at h
      split at h
      next msg heq => exact LoadPhase1.noConfusion h
      next labels' heq =>
        refine ih _ _ _ _ l v h ?_ (fun j => hno (j + 1))
        simp only
        cases hla : label_of a <;> simp only [hla] at heq
        · cases heq
          exact hb
        · next lbl =>
          have hll : ¬ l = lbl := by
            intro hll
            exact hno 0 (by rw [nth_label, list_nth, Option.bind, hla, hll])
          rw [bind_label_ok _ _ _ _ heq]
          rw [assoc_lookup_insert_ne _ _ _ _ hll]
          exact hb

/-- Part (a) of the loader's label contract: a successful load binds a
non-re-bindable label appearing at append position i to the absolute
index start + i, where start is the instruction-vector length before the
load. -/
theorem load_core_binds_nonmarker :
    ∀ (asms : List Asm) (i : Nat) (st : VMState)
      (statics statics' : List Nat) (st' : VMState) (l : String),
      load_core st statics asms = .ok st' statics' →
      nth_label asms i = some l →
      starts_with_marker l = false →
      assoc_lookup st'.label_to_instruction l =
        some (st.instructions.length + i) := by
  intro asms
  induction asms with
  | nil =>
      intro i st statics statics' st' l _ hocc _
      exact Option.noConfusion hocc
  | cons a rest ih =>
      intro i st statics statics' st' l h hocc hm
      simp only [load_core] at h
      split at h
      next msg heq => exact LoadPhase1.noConfusion h
      next labels' heq =>
        cases i with
        | zero =>
            have hla : label_of a = some l := hocc
            simp only [hla] at heq
            have hbound :
                assoc_lookup labels' l = some st.instructions.length := by
              rw [bind_label_ok _ _ _ _ heq]
              exact assoc_lookup_insert_self _ _ _
            have := load_core_persist_nonmarker rest _ _ _ _ l
              st.instructions.length h hbound hm
            simpa using this
        | succ i =>
            have := ih i _ _ _ _ l h hocc hm
            rw [show (st.instructions ++ [a]).length = st.instructions.length + 1
              by simp] at this
            rw [show st.instructions.length + (i + 1) =
              st.instructions.length + 1 + i by omega]
            exact this

/-- Part (b) of the loader's label contract: loading an assembly that
mentions an already bound non-re-bindable label fails fatally. -/
theorem load_core_duplicate_fails :
    ∀ (asms : List Asm) (i : Nat) (st : VMState) (statics : List Nat)
      (l : String) (v : Nat),
      assoc_lookup st.label_to_instruction l = some v →
      starts_with_marker l = false →
      nth_label asms i = some l →
      ∀ (st' : VMState) (statics' : List Nat),
        load_core st statics asms ≠ .ok st' statics' := by
  intro asms
  induction asms with
  | nil =>
      intro i st statics l v _ _ hocc
      exact absurd hocc (by simp [nth_label, list_nth])
  | cons a rest ih =>
      intro i st statics l v hb hm hocc st' statics' h
      simp only [load_core] at h
      split at h
      next msg heq => exact LoadPhase1.noConfusion h
      next labels' heq =>
        cases i with
        | zero =>
            have hla : label_of a = some l := hocc
            simp only [hla] at heq
            rw [bind_label_occupied_nonmarker _ _ _ _ hb hm] at heq
            exact Except.noConfusion heq
        | succ i =>
            cases hla : label_of a <;> simp only [hla] at heq
            · cases heq
              refine ih i _ _ l v ?_ hm hocc _ _ h
              exact hb
            · next lbl =>
              by_cases hll : l = lbl
              · subst hll
                rw [bind_label_occupied_nonmarker _ _ _ _ hb hm] at heq
                exact Except.noConfusion heq
              · refine ih i _ _ l v ?_ hm hocc _ _ h
                simp only
                rw [bind_label_ok _ _ _ _ heq]
                rw [assoc_lookup_insert_ne _ _ _ _ hll]
                exact hb

/-- Part (c) of the loader's label contract: loading an assembly whose
single occurrence of an already bound `@@` label sits at append position
i overwrites the old binding with start + i. -/
theorem load_core_rebinds_marker :
    ∀ (asms : List Asm) (i : Nat) (st : VMState)
      (statics statics' : List Nat) (st' : VMState) (l : String) (v : Nat),
      load_core st statics asms = .ok st' statics' →
      assoc_lookup st.label_to_instruction l = some v →
      starts_with_marker l = true →
      nth_label asms i = some l →
      (∀ j, j ≠ i → nth_label asms j ≠ some l) →
      assoc_lookup st'.label_to_instruction l =
        some (st.instructions.length + i) := by
  intro asms
  induction asms with
  | nil =>
      intro i st statics statics' st' l v _ _ _ hocc _
      exact Option.noConfusion hocc
  | cons a rest ih =>
      intro i st statics statics' st' l v h hb hm hocc hno
      simp only [load_core] at h
      split at h
      next msg heq => exact LoadPhase1.noConfusion h
      next labels' heq =>
        cases i with
        | zero =>
            have hla : label_of a = some l := hocc
            simp only [hla] at heq
            have hbound :
                assoc_lookup labels' l = some st.instructions.length := by
              rw [bind_label_ok _ _ _ _ heq]
              exact assoc_lookup_insert_self _ _ _
            have := load_core_persist_nooccur rest _ _ _ _ l
              st.instructions.length h hbound
              (fun j => hno (j + 1) (Nat.succ_ne_zero j))
            simpa using this
        | succ i =>
            have hno0 : ¬ label_of a = some l := by
              intro hla
              exact hno 0 (by omega) hla
            cases hla : label_of a <;> simp only [hla] at heq
            · cases heq
              have := ih i _ _ _ _ l v h hb hm hocc
                (fun j hj => hno (j + 1) (by omega))
              rw [show (st.instructions ++ [a]).length =
                st.instructions.length + 1 by simp] at this
              rw [show st.instructions.length + (i + 1) =
                st.instructions.length + 1 + i by omega]
              exact this
            · next lbl =>
              have hll : ¬ l = lbl := by
                intro hll
                exact hno0 (by rw [hla, hll])
              have hb' : assoc_lookup labels' l = some v := by
                rw [bind_label_ok _ _ _ _ heq]
                rw [assoc_lookup_insert_ne _ _ _ _ hll]
                exact hb
              have := ih i _ _ _ _ l v h hb' hm hocc
                (fun j hj => hno (j + 1) (by omega))
              rw [show (st.instructions ++ [a]).length =
                st.instructions.length + 1 by simp] at this
              rw [show st.instructions.length + (i + 1) =
                st.instructions.length + 1 + i by omega]
              exact this

/-- C4: for every load, a Label or PublicLabel at append position i binds
its label to absolute index start + i; a non-`@@` label that is already
bound makes the load fail fatally with the duplicate-label panic; an
already bound `@@` label is overwritten to its (single) new position.
In particular a successful load maps every non-`@@` label to the one
index of its defining occurrence. -/
theorem c4_label_binding :
    (∀ (asms : List Asm) (i : Nat) (st : VMState)
        (statics statics' : List Nat) (st' : VMState) (l : String),
      load_core st statics asms = .ok st' statics' →
      nth_label asms i = some l →
      starts_with_marker l = false →
      assoc_lookup st'.label_to_instruction l =
        some (st.instructions.length + i)) ∧
    (∀ (asms : List Asm) (i : Nat) (st : VMState) (statics : List Nat)
        (l : String) (v : Nat),
      assoc_lookup st.label_to_instruction l = some v →
      starts_with_marker l = false →
      nth_label asms i = some l →
      ∀ (st' : VMState) (statics' : List Nat),
        load_core st statics asms ≠ .ok st' statics') ∧
    (∀ (asms : List Asm) (i : Nat) (st : VMState)
        (statics statics' : List Nat) (st' : VMState) (l : String) (v : Nat),
      load_core st statics asms = .ok st' statics' →
      assoc_lookup st.label_to_instruction l = some v →
      starts_with_marker l = true →
      nth_label asms i = some l →
      (∀ j, j ≠ i → nth_label asms j ≠ some l) →
      assoc_lookup st'.label_to_instruction l =
        some (st.instructions.length + i)) :=
  ⟨load_core_binds_nonmarker, load_core_duplicate_fails,
    load_core_rebinds_marker⟩

/-- Witness for C4: loading a single Label instruction into the fresh VM
binds it to absolute index 1 + 0. -/
theorem c4_witness :
    assoc_lookup c9w_loaded.label_to_instruction lbl_main = some 1 :=
  c4_label_binding.1 [Asm.Label lbl_main] 0 (build_vm Memory.init)
    [] [] c9w_loaded lbl_main rfl rfl rfl

/-- The trace of the state inside a step result, with a default for the
stateless outcomes. -/
def StepResult.trace_or (r : StepResult) (d : List ScopeOp) : List ScopeOp :=
  match r with
  | .stepOk st _ => st.memory.trace
  | .stepErr st _ => st.memory.trace
  | _ => d

theorem pack_loop_trace :
    ∀ (n : Nat) (dq : List Value) (m : Memory) (dq' : List Value) (m' : Memory),
      pack_loop n dq m = some (dq', m') → m'.trace = m.trace := by
  intro n
  induction n with
  | zero =>
      intro dq m dq' m' h
      cases h
      rfl
  | succ n ih =>
      intro dq m dq' m' h
      cases hs : m.stack with
      | nil => simp [pack_loop, Memory.pop, hs] at h
      | cons v rest =>
          simp only [pack_loop, Memory.pop, hs] at h
          have := ih _ _ _ _ h
          exact this

theorem fault_fn_trace :
    ∀ (d : Nat) (st : VMState) (f : Fault) (st' : VMState),
      fault_fn d st f = .ok st' → st'.memory.trace = st.memory.trace := by
  intro d
  induction d with
  | zero =>
      intro st f st' h
      exact Except.noConfusion h
  | succ d ih =>
      intro st f st' h
      simp only [fault_fn] at h
      split at h
      · exact Except.noConfusion h
      · split at h
        · split at h
          · cases h
            rfl
          · have := ih _ _ _ h
            simpa [Memory.take_stack] using this
        · cases h
          rfl
        · exact Except.noConfusion h

/-- Interpreting one instruction never records a scope operation: the
interpreter core manipulates the operand stack and variable slots only;
scope-stack changes would go through native methods, which are outside
the modelled fragment. -/
theorem interpret_trace (st : VMState) (a : Asm) (pc : Nat) :
    (interpret_instruction st a pc).trace_or st.memory.trace =
      st.memory.trace := by
  cases a with
  | Label s => rfl
  | PublicLabel s => rfl
  | Nop => rfl
  | Halt => rfl
  | Static => rfl
  | Push v => rfl
  | Clear => rfl
  | SetVar i =>
      cases hs : st.memory.stack with
      | nil => simp [interpret_instruction, Memory.pop, hs, StepResult.trace_or]
      | cons v rest =>
          cases hsc : st.memory.scopes <;>
            simp [interpret_instruction, Memory.pop, hs, Memory.set_var, hsc,
              StepResult.trace_or]
  | GetVar i =>
      cases hgv : st.memory.get_var i <;>
        simp [interpret_instruction, hgv, StepResult.trace_or, Memory.push]
  | ClearVar i => rfl
  | NextVar i => rfl
  | Pop =>
      cases hs : st.memory.stack <;>
        simp [interpret_instruction, Memory.pop, hs, StepResult.trace_or]
  | Pack n =>
      cases hp : pack_loop n [] st.memory with
      | none => simp [interpret_instruction, hp, StepResult.trace_or]
      | some pr =>
          obtain ⟨vec, m'⟩ := pr
          simp [interpret_instruction, hp, StepResult.trace_or, Memory.push]
          exact pack_loop_trace _ _ _ _ _ hp
  | Goto loc =>
      cases hr : resolve_location st pc loc <;>
        simp [interpret_instruction, hr, StepResult.trace_or]
  | CondGoto loc =>
      cases hs : st.memory.stack with
      | nil => simp [interpret_instruction, Memory.pop, hs, StepResult.trace_or]
      | cons v rest =>
          simp only [interpret_instruction, Memory.pop, hs]
          split
          · split <;> simp [StepResult.trace_or]
          · simp [StepResult.trace_or]
  | Return => rfl
  | Call loc => rfl
  | GetSymbol s =>
      cases hlk : assoc_lookup st.label_to_instruction s with
      | some i =>
          simp [interpret_instruction, hlk, StepResult.trace_or, Memory.push]
      | none =>
          cases hf : fault_fn 4 st (.MissingSymbol s) with
          | error m => simp [interpret_instruction, hlk, hf, StepResult.trace_or]
          | ok stf =>
              simp [interpret_instruction, hlk, hf, StepResult.trace_or]
              exact fault_fn_trace 4 st _ stf hf
  | GetAttribute attr =>
      cases hs : st.memory.stack with
      | nil => simp [interpret_instruction, Memory.pop, hs, StepResult.trace_or]
      | cons d rest =>
          simp only [interpret_instruction, Memory.pop, hs]
          (repeat' split) <;> simp [StepResult.trace_or, Memory.push]
  | Index n => rfl
  | SendMessage => rfl
  | IntoReference => rfl
  | NativeMethod name argc => rfl
  | Deref =>
      cases hs : st.memory.stack with
      | nil => simp [interpret_instruction, Memory.pop, hs, StepResult.trace_or]
      | cons v rest =>
          simp only [interpret_instruction, Memory.pop, hs]
          (repeat' split) <;> simp [StepResult.trace_or, Memory.push]
  | SetRef => rfl
  | Add =>
      cases hs : st.memory.stack with
      | nil => simp [interpret_instruction, arith_step, Memory.pop, hs,
          StepResult.trace_or]
      | cons l rest =>
          cases rest with
          | nil => simp [interpret_instruction, arith_step, Memory.pop, hs,
              StepResult.trace_or]
          | cons r rest2 =>
              simp only [interpret_instruction, arith_step, Memory.pop, hs]
              (repeat' split) <;> simp [StepResult.trace_or, Memory.push]
  | Subtract =>
      cases hs : st.memory.stack with
      | nil => simp [interpret_instruction, arith_step, Memory.pop, hs,
          StepResult.trace_or]
      | cons l rest =>
          cases rest with
          | nil => simp [interpret_instruction, arith_step, Memory.pop, hs,
              StepResult.trace_or]
          | cons r rest2 =>
              simp only [interpret_instruction, arith_step, Memory.pop, hs]
              (repeat' split) <;> simp [StepResult.trace_or, Memory.push]
  | Multiply =>
      cases hs : st.memory.stack with
      | nil => simp [interpret_instruction, arith_step, Memory.pop, hs,
          StepResult.trace_or]
      | cons l rest =>
          cases rest with
          | nil => simp [interpret_instruction, arith_step, Memory.pop, hs,
              StepResult.trace_or]
          | cons r rest2 =>
              simp only [interpret_instruction, arith_step, Memory.pop, hs]
              (repeat' split) <;> simp [StepResult.trace_or, Memory.push]
  | Gt =>
      cases hs : st.memory.stack with
      | nil => simp [interpret_instruction, arith_step, Memory.pop, hs,
          StepResult.trace_or]
      | cons l rest =>
          cases rest with
          | nil => simp [interpret_instruction, arith_step, Memory.pop, hs,
              StepResult.trace_or]
          | cons r rest2 =>
              simp only [interpret_instruction, arith_step, Memory.pop, hs]
              (repeat' split) <;> simp [StepResult.trace_or, Memory.push]
  | Divide => rfl
  | Remainder => rfl
  | And => rfl
  | Or => rfl
  | Not =>
      cases hs : st.memory.stack with
      | nil => simp [interpret_instruction, Memory.pop, hs, StepResult.trace_or]
      | cons v rest =>
          simp only [interpret_instruction, Memory.pop, hs]
          (repeat' split) <;> simp [StepResult.trace_or, Memory.push]
  | BooleanAnd =>
      cases hs : st.memory.stack with
      | nil => simp [interpret_instruction, boolean_step, Memory.pop, hs,
          StepResult.trace_or]
      | cons l rest =>
          cases rest with
          | nil => simp [interpret_instruction, boolean_step, Memory.pop, hs,
              StepResult.trace_or]
          | cons r rest2 =>
              simp only [interpret_instruction, boolean_step, Memory.pop, hs]
              (repeat' split) <;> simp [StepResult.trace_or, Memory.push]
  | BooleanOr =>
      cases hs : st.memory.stack with
      | nil => simp [interpret_instruction, boolean_step, Memory.pop, hs,
          StepResult.trace_or]
      | cons l rest =>
          cases rest with
          | nil => simp [interpret_instruction, boolean_step, Memory.pop, hs,
              StepResult.trace_or]
          | cons r rest2 =>
              simp only [interpret_instruction, boolean_step, Memory.pop, hs]
              (repeat' split) <;> simp [StepResult.trace_or, Memory.push]
  | BooleanXor =>
      cases hs : st.memory.stack with
      | nil => simp [interpret_instruction, boolean_step, Memory.pop, hs,
          StepResult.trace_or]
      | cons l rest =>
          cases rest with
          | nil => simp [interpret_instruction, boolean_step, Memory.pop, hs,
              StepResult.trace_or]
          | cons r rest2 =>
              simp only [interpret_instruction, boolean_step, Memory.pop, hs]
              (repeat' split) <;> simp [StepResult.trace_or, Memory.push]
  | GT0 =>
      cases hs : st.memory.stack with
      | nil => simp [interpret_instruction, Memory.pop, hs, StepResult.trace_or]
      | cons v rest =>
          simp only [interpret_instruction, Memory.pop, hs]
          (repeat' split) <;> simp [StepResult.trace_or, Memory.push]
  | Boolify =>
      cases hs : st.memory.stack with
      | nil => simp [interpret_instruction, Memory.pop, hs, StepResult.trace_or]
      | cons v rest =>
          simp only [interpret_instruction, Memory.pop, hs]
          (repeat' split) <;> simp [StepResult.trace_or, Memory.push]

theorem finish_run_trace (st : VMState) :
    (finish_run st).state.memory.trace = st.memory.trace := by
  cases hs : st.memory.stack with
  | nil => simp [finish_run, Memory.pop, hs, RunResult.state]
  | cons v rest =>
      cases v <;> simp [finish_run, Memory.pop, hs, RunResult.state]

/-- The interpreter loop never records a scope operation: the trace is
whatever it was when the loop was entered. -/
theorem run_loop_trace :
    ∀ (fuel : Nat) (st : VMState),
      (run_loop fuel st).state.memory.trace = st.memory.trace := by
  intro fuel
  induction fuel with
  | zero => intro st; rfl
  | succ fuel ih =>
      intro st
      by_cases hg : loop_guard st = true
      · cases hfetch : list_nth st.instructions st.program_counter with
        | none => simp [run_loop, hg, hfetch, RunResult.state]
        | some instr =>
            cases hstep : interpret_instruction st instr st.program_counter with
            | panicked msg =>
                simp [run_loop, hg, hfetch, hstep, RunResult.state]
            | unmodelled why =>
                simp [run_loop, hg, hfetch, hstep, RunResult.state]
            | stepErr st' e =>
                have ht : st'.memory.trace = st.memory.trace := by
                  have hit := interpret_trace st instr st.program_counter
                  rw [hstep] at hit
                  exact hit
                simp [run_loop, hg, hfetch, hstep, RunResult.state, ht]
            | stepOk st' nxt =>
                have ht : st'.memory.trace = st.memory.trace := by
                  have hit := interpret_trace st instr st.program_counter
                  rw [hstep] at hit
                  exact hit
                have hrec := ih (st'.set_program_counter nxt)
                simp only [run_loop, hg, if_true, hfetch, hstep]
                rw [hrec]
                exact ht
      · cases hh : st.handler with
        | none =>
            simp only [run_loop, hg, if_false, Bool.false_eq_true, hh]
            exact finish_run_trace st
        | some handle =>
            have hrec := ih
              (VMState.end_fault
                { st with handler := none, kernel_mode := false } handle)
            simp only [run_loop, hg, if_false, Bool.false_eq_true, hh]
            rw [hrec]
            rfl

/-- The state carried by the label-binding phase result. -/
def LoadPhase1.state : LoadPhase1 → VMState
  | .panicked _ st => st
  | .ok st _ => st

/-- The appending phase of load never touches the memory at all. -/
theorem load_core_state_memory :
    ∀ (asms : List Asm) (st : VMState) (statics : List Nat),
      (load_core st statics asms).state.memory = st.memory := by
  intro asms
  induction asms with
  | nil => intro st statics; rfl
  | cons a rest ih =>
      intro st statics
      simp only [load_core]
      split
      · rfl
      · exact ih _ _

theorem run_statics_trace :
    ∀ (l : List Nat) (fuel : Nat) (st : VMState),
      (run_statics fuel st l).state.memory.trace = st.memory.trace := by
  intro l
  induction l with
  | nil => intro fuel st; rfl
  | cons i rest ih =>
      intro fuel st
      have hrun : (run_from_index fuel st i).state.memory.trace =
          st.memory.trace :=
        run_loop_trace fuel
          { st with cont := true, counter_stack := st.counter_stack ++ [i] }
      cases hr : run_from_index fuel st i with
      | timeout st' =>
          rw [hr] at hrun
          simp [run_statics, hr, LoadResult.state]
          exact hrun
      | panicked m st' =>
          rw [hr] at hrun
          simp [run_statics, hr, LoadResult.state]
          exact hrun
      | unmodelled w st' =>
          rw [hr] at hrun
          simp [run_statics, hr, LoadResult.state]
          exact hrun
      | done st' res =>
          rw [hr] at hrun
          simp only [run_statics, hr]
          rw [ih fuel st']
          exact hrun

/-- C5's load-side fact: loading an assembly — including the execution of
its static entry points — never invokes a scope-stack operation; in
particular global_scope is never called by load. -/
theorem load_trace (fuel : Nat) (st : VMState) (asm : List Asm) :
    (load fuel st asm).state.memory.trace = st.memory.trace := by
  have hmem := load_core_state_memory asm st []
  cases hlc : load_core st [] asm with
  | panicked msg st' =>
      rw [hlc] at hmem
      simp [load, hlc, LoadResult.state]
      rw [show st'.memory = st.memory from hmem]
  | ok st' statics =>
      rw [hlc] at hmem
      simp only [load, hlc]
      rw [run_statics_trace statics fuel st']
      rw [show st'.memory = st.memory from hmem]

/-- C5 counterexample: loading an assembly whose static entry point sits
at index 2 aborts with the interpreter's invalid-instruction panic (the
run starts at the unhandled Static opcode), and the scope-operation trace
stays empty — global_scope was never invoked before, during or after the
static region. -/
theorem c5_counterexample :
    (load 50 (build_vm Memory.init) static_program).is_panicked = true ∧
    (load 50 (build_vm Memory.init) static_program).state.memory.trace = [] := by
  exact ⟨rfl, rfl⟩

/-- C5 amended: load performs no scope manipulation at all — neither
global_scope nor back_scope nor any other scope operation is recorded
around its static executions — while load_static is the routine that
brackets execution: on success it ran global_scope after the inner load,
executed the newly loaded region from the pre-load start index to exit
code 0, and restored the scope stack with back_scope. -/
theorem c5_static_scope :
    (∀ (fuel : Nat) (st : VMState) (asm : List Asm),
        (load fuel st asm).state.memory.trace = st.memory.trace) ∧
    (∀ (fuel : Nat) (st : VMState) (asm : List Asm) (st' : VMState),
        load_static fuel st asm = .loaded st' →
        ∃ (stL st3 : VMState),
          load fuel st asm = .loaded stL ∧
          run_from_index fuel { stL with memory := stL.memory.global_scope }
            st.instructions.length = .done st3 (.ok 0) ∧
          st' = { st3 with memory := st3.memory.back_scope }) := by
  refine ⟨load_trace, ?_⟩
  intro fuel st asm st' h
  simp only [load_static] at h
  split at h
  · exact LoadResult.noConfusion h
  · exact LoadResult.noConfusion h
  · exact LoadResult.noConfusion h
  · next stL heqL =>
      split at h
      · exact LoadResult.noConfusion h
      · exact LoadResult.noConfusion h
      · exact LoadResult.noConfusion h
      · exact LoadResult.noConfusion h
      · next st3 u heqR =>
          by_cases hu : u = 0
          · subst hu
            rw [if_neg (by simp)] at h
            cases h
            exact ⟨stL, st3, heqL, heqR, rfl⟩
          · rw [if_pos hu] at h
            exact LoadResult.noConfusion h

/-- A program whose top-level run pushes exit code 0 and returns; loading
it via load_static succeeds. -/
def ls_prog : List Asm := [.Push (.UInteger 0), .Return]

/-- Witness for C5 amended: both clauses at concrete inputs — a load
preserves the empty trace, and a successful load_static decomposes into
global_scope, the run from index 1, and back_scope. -/
theorem c5_static_scope_witness :
    (load 50 (build_vm Memory.init) ls_prog).state.memory.trace =
      (build_vm Memory.init).memory.trace ∧
    (∃ (stL st3 : VMState),
      load 50 (build_vm Memory.init) ls_prog = .loaded stL ∧
      run_from_index 50 { stL with memory := stL.memory.global_scope }
        (build_vm Memory.init).instructions.length = .done st3 (.ok 0) ∧
      (load_static 50 (build_vm Memory.init) ls_prog).state =
        { st3 with memory := st3.memory.back_scope }) := by
  refine ⟨c5_static_scope.1 50 (build_vm Memory.init) ls_prog, ?_⟩
  exact c5_static_scope.2 50 (build_vm Memory.init) ls_prog
    ((load_static 50 (build_vm Memory.init) ls_prog).state) rfl

/-- The panic message of a load result, when it panicked. -/
def LoadResult.panic_msg : LoadResult → Option String
  | .panicked msg _ => some msg
  | _ => none

/-- C10 counterexample: during load of an assembly with a static entry
point, the static run aborts with the interpreter's invalid-instruction
panic — it never reaches the exit-code pop, no operand-stack value is
consumed (the stack is still empty), and no ignored no-exit-code error is
produced, because the panic kills the load itself. -/
theorem c10_counterexample :
    (load 50 (build_vm Memory.init) static_program).panic_msg =
      some msg_invalid_instruction ∧
    (load 50 (build_vm Memory.init) static_program).state.memory.stack = [] := by
  exact ⟨rfl, rfl⟩

/-- C10 amended: load runs each static entry point through
run_from_index and discards the returned Result — but such a run starts
at the Static opcode itself, which interpret_instruction does not handle,
so whenever the entry index is inside the loop range the run panics with
the invalid-instruction message before any exit-code pop can happen; a
run that does return a Result (Ok or the no-exit-code error) is ignored
by the static loop, which simply continues with the resulting state. -/
theorem c10_static_runs :
    (∀ (fuel : Nat) (st : VMState) (i : Nat),
      1 ≤ i → i ≤ st.instructions.length - 1 →
      list_nth st.instructions i = some Asm.Static →
      run_from_index (fuel + 1) st i =
        .panicked msg_invalid_instruction
          { st with cont := true,
                    counter_stack := st.counter_stack ++ [i] }) ∧
    (∀ (fuel : Nat) (st : VMState) (i : Nat) (rest : List Nat)
        (st' : VMState) (res : Except VMError Nat),
      run_from_index fuel st i = .done st' res →
      run_statics fuel st (i :: rest) = run_statics fuel st' rest) := by
  constructor
  · intro fuel st i h1 h2 hs
    have hpc :
        VMState.program_counter
          { st with cont := true,
                    counter_stack := st.counter_stack ++ [i] } = i := by
      simp [VMState.program_counter, List.getLast?_concat]
    have hg :
        loop_guard
          { st with cont := true,
                    counter_stack := st.counter_stack ++ [i] } = true := by
      simp [loop_guard, hpc, h1, h2]
    rw [run_from_index]
    simp only [run_loop, hg, if_true, hpc, hs]
    simp [interpret_instruction]
  · intro fuel st i rest st' res h
    simp [run_statics, h]

/-- A VM whose instruction vector holds a Static opcode at index 1. -/
def c10w : VMState :=
  { build_vm Memory.init with instructions := [Asm.Nop, Asm.Static] }

/-- Witness for C10 amended: the static entry at index 1 of c10w panics,
and a concrete returned Result (the no-exit-code error of running from
the builder's index 0) is discarded by the static loop. -/
theorem c10_static_runs_witness :
    run_from_index 1 c10w 1 =
      .panicked msg_invalid_instruction
        { c10w with cont := true, counter_stack := [1] } ∧
    run_statics 5 (build_vm Memory.init) [0] =
      run_statics 5
        { build_vm Memory.init with cont := true, counter_stack := [0] } [] := by
  constructor
  · exact c10_static_runs.1 0 c10w 1 (by decide) (by decide) rfl
  · exact c10_static_runs.2 5 (build_vm Memory.init) 0 []
      { build_vm Memory.init with cont := true, counter_stack := [0] }
      (.error .NoExitCode) rfl
